import Mathlib

/-!
Verification development for the MixA3 mixed-mode EBM3 solver
(src/solver/mixA3/mixA3.cc of the Genius device simulator).

The C++ routines are shallowly embedded below.  Doubles are modelled as
exact rationals where only field arithmetic and comparisons occur, and as
real numbers where transcendental functions (log, sqrt) appear.  The
distributed-memory collectives (Parallel::max, Parallel::sum, broadcast)
are modelled by evaluating the corresponding fold over the union of all
on-processor data, which is exactly the value every rank observes after
the collective.  PhysicalUnit constants (cm, K, kb, e) and T_external are
passed as explicit parameters.
-/

set_option maxHeartbeats 1000000

namespace MixA3

/-- Region types of the simulator (SimulationRegion::type()). -/
inductive RegionType where
  | Semiconductor
  | Insulator
  | Electrode
  | Metal
  | Vacuum
deriving DecidableEq

/-- Advanced-model flags of a region (get_advanced_model()):
which extra temperature variables are active. -/
structure AdvModel where
  enable_Tl : Bool
  enable_Tn : Bool
  enable_Tp : Bool

/-! ## BDF2 positivity test (MixA3Solver::BDF2_positive_defined, lines 547-584) -/

/-- Time-history fields of one FVM node (FVM_NodeData): current and last
values of n, p, T, Tn, Tp. -/
structure NodeData where
  n      : ℚ
  n_last : ℚ
  p      : ℚ
  p_last : ℚ
  T      : ℚ
  T_last : ℚ
  Tn      : ℚ
  Tn_last : ℚ
  Tp      : ℚ
  Tp_last : ℚ

/-- A region as seen by BDF2_positive_defined: its type, advanced-model
flags and the history data of its on-processor nodes. -/
structure HRegion where
  typ : RegionType
  adv : AdvModel
  nodes : List NodeData

/-- Number of failed positivity tests contributed by one node
(the five `if (a*xi < b*xi_last) failure_count++` tests of the loop body,
lines 567-577). -/
def nodeFailures (a b : ℚ) (adv : AdvModel) (d : NodeData) : ℕ :=
  (if a * d.n < b * d.n_last then 1 else 0)
  + (if a * d.p < b * d.p_last then 1 else 0)
  + (if adv.enable_Tl = true ∧ a * d.T < b * d.T_last then 1 else 0)
  + (if adv.enable_Tn = true ∧ a * d.n * d.Tn < b * d.n_last * d.Tn_last then 1 else 0)
  + (if adv.enable_Tp = true ∧ a * d.p * d.Tp < b * d.p_last * d.Tp_last then 1 else 0)

/-- Total failure count over all semiconductor regions; the
Parallel::sum collective is the plain sum over all on-processor nodes. -/
def failureCount (a b : ℚ) (regions : List HRegion) : ℕ :=
  (regions.map (fun rg =>
    if rg.typ = RegionType.Semiconductor then
      (rg.nodes.map (nodeFailures a b rg.adv)).sum
    else 0)).sum

/-- MixA3Solver::BDF2_positive_defined, lines 547-584, verbatim:
r = dt_last/(dt_last+dt), a = 1/(r(1-r)), b = (1-r)/r, count the
violations of a*xi >= b*xi_last over every semiconductor on-processor
node, and return (failure_count != 0). -/
def BDF2_positive_defined (dt dt_last : ℚ) (regions : List HRegion) : Bool :=
  let r := dt_last / (dt_last + dt)
  let a := 1 / (r * (1 - r))
  let b := (1 - r) / r
  decide (failureCount a b regions ≠ 0)

/-! ## Predictor coefficients computed in LTE_norm (lines 608-635) -/

/-- VecAXPY(y, a, x): y <- y + a*x, componentwise on distributed vectors
modelled as functions from row index to value. -/
def vecAXPY (a : ℚ) (x y : ℕ → ℚ) : ℕ → ℚ := fun i => y i + a * x i

/-- BDF1 predictor of LTE_norm (lines 610-611): starting from a zeroed
xp, VecAXPY(xp, 1+hn/hn1, x_n); VecAXPY(xp, -hn/hn1, x_n1). -/
def bdf1_predictor (hn hn1 : ℚ) (x_n x_n1 : ℕ → ℚ) : ℕ → ℚ :=
  vecAXPY (-(hn / hn1)) x_n1 (vecAXPY (1 + hn / hn1) x_n (fun _ => 0))

/-- BDF2 higher-order predictor coefficient cn (line 626). -/
def bdf2_cn (hn hn1 hn2 : ℚ) : ℚ :=
  1 + hn * (hn + 2 * hn1 + hn2) / (hn1 * (hn1 + hn2))

/-- BDF2 higher-order predictor coefficient cn1 (line 627). -/
def bdf2_cn1 (hn hn1 hn2 : ℚ) : ℚ :=
  -hn * (hn + hn1 + hn2) / (hn1 * hn2)

/-- BDF2 higher-order predictor coefficient cn2 (line 628). -/
def bdf2_cn2 (hn hn1 hn2 : ℚ) : ℚ :=
  hn * (hn + hn1) / (hn2 * (hn1 + hn2))

/-! ## Positive-density damping (MixA3Solver::positive_density_damping, lines 370-464) -/

/-- Values of the six EBM variables of one node block.  The variable
order declared by a semiconductor region is psi, n, p, then the enabled
temperatures, so the literal array access ww[local_offset+1] in line 414
addresses the ELECTRON slot. -/
structure VarValsQ where
  psi : ℚ
  n   : ℚ
  p   : ℚ
  Tl  : ℚ
  Tn  : ℚ
  Tp  : ℚ

/-- One FVM node as the damping routines see it: the blocks of the
previous iterate x, the search direction y and the candidate w. -/
structure DampNode where
  x : VarValsQ
  y : VarValsQ
  w : VarValsQ

/-- A region as seen by positive_density_damping. -/
structure DampRegion where
  typ : RegionType
  adv : AdvModel
  nodes : List DampNode

/-- Sign function used by the psi clip (std::sign in line 410; only
evaluated at nonzero arguments there). -/
def sgn (q : ℚ) : ℚ := if 0 < q then 1 else if q < 0 then -1 else 0

/-- Lines 408-411: the psi update is clipped to a 1 V change by sign
when the search direction exceeds 1 V. -/
def pdd_psi_step (x y w : VarValsQ) : VarValsQ :=
  if 1 < |y.psi| then { w with psi := x.psi - sgn y.psi * 1 } else w

/-- Lines 414-417: n is clamped to onePerCMC (the test reads
ww[local_offset+1], the ELECTRON slot). -/
def pdd_n_step (onePerCMC : ℚ) (w : VarValsQ) : VarValsQ :=
  if w.n < onePerCMC then { w with n := onePerCMC } else w

/-- Lines 419-422: p is clamped to onePerCMC. -/
def pdd_p_step (onePerCMC : ℚ) (w : VarValsQ) : VarValsQ :=
  if w.p < onePerCMC then { w with p := onePerCMC } else w

/-- Lines 425-429: Tl is clamped to T_external - 50 K when enabled. -/
def pdd_Tl_step (T_external Kunit : ℚ) (adv : AdvModel) (w : VarValsQ) : VarValsQ :=
  if adv.enable_Tl = true ∧ w.Tl < T_external - 50 * Kunit then
    { w with Tl := T_external - 50 * Kunit }
  else w

/-- Lines 431-440: the n*Tn row is recomputed through the temperature
blend (n0 and T0 read the previous iterate x, n1 the current candidate)
and clipped to 0.9*T_external. -/
def pdd_Tn_step (T_external : ℚ) (adv : AdvModel) (x w : VarValsQ) : VarValsQ :=
  if adv.enable_Tn = true then
    let n0 := x.n
    let n1 := w.n
    let T0 := x.Tn / n0
    let T1 := T0 * (1 - min (n1 / n0) 2) + w.Tn / n0
    let T1c := if T1 < 9 / 10 * T_external then 9 / 10 * T_external else T1
    { w with Tn := T1c * n1 }
  else w

/-- Lines 442-451: the p*Tp row analogously. -/
def pdd_Tp_step (T_external : ℚ) (adv : AdvModel) (x w : VarValsQ) : VarValsQ :=
  if adv.enable_Tp = true then
    let p0 := x.p
    let p1 := w.p
    let T0 := x.Tp / p0
    let T1 := T0 * (1 - min (p1 / p0) 2) + w.Tp / p0
    let T1c := if T1 < 9 / 10 * T_external then 9 / 10 * T_external else T1
    { w with Tp := T1c * p1 }
  else w

/-- Body of the positive_density_damping node loop (lines 403-452),
updating the candidate block w of one semiconductor node: the source
statements applied in order. -/
def pdd_node (T_external onePerCMC Kunit : ℚ) (adv : AdvModel) (nd : DampNode) : VarValsQ :=
  pdd_Tp_step T_external adv nd.x
    (pdd_Tn_step T_external adv nd.x
      (pdd_Tl_step T_external Kunit adv
        (pdd_p_step onePerCMC
          (pdd_n_step onePerCMC
            (pdd_psi_step nd.x nd.y nd.w)))))

/-- MixA3Solver::positive_density_damping, lines 370-464: the node loop
runs over the on-processor nodes of semiconductor regions only
(line 390); x and y are read-only, w is rewritten per node. -/
def positive_density_damping (T_external onePerCMC Kunit : ℚ)
    (regions : List DampRegion) : List DampRegion :=
  regions.map (fun rg =>
    if rg.typ = RegionType.Semiconductor then
      { rg with nodes := rg.nodes.map (fun nd =>
          { nd with w := pdd_node T_external onePerCMC Kunit rg.adv nd }) }
    else rg)

/-- The per-node property claimed for positive_density_damping (claim C5),
stated in the vocabulary of the claim: out is the damped candidate block. -/
def pddNodeProp (T_external onePerCMC Kunit : ℚ) (adv : AdvModel) (nd : DampNode) : Prop :=
  let out := pdd_node T_external onePerCMC Kunit adv nd
  |out.psi - nd.x.psi| ≤ 1
  ∧ (1 < |nd.y.psi| → out.psi = nd.x.psi - sgn nd.y.psi * 1)
  ∧ onePerCMC ≤ out.n
  ∧ onePerCMC ≤ out.p
  ∧ (adv.enable_Tl = true → T_external - 50 * Kunit ≤ out.Tl)
  ∧ (adv.enable_Tn = true →
      out.Tn =
        (let n1 := max nd.w.n onePerCMC
         let T0 := nd.x.Tn / nd.x.n
         let T1 := T0 * (1 - min (n1 / nd.x.n) 2) + nd.w.Tn / nd.x.n
         max T1 (9 / 10 * T_external) * n1))
  ∧ (adv.enable_Tp = true →
      out.Tp =
        (let p1 := max nd.w.p onePerCMC
         let T0 := nd.x.Tp / nd.x.p
         let T1 := T0 * (1 - min (p1 / nd.x.p) 2) + nd.w.Tp / nd.x.p
         max T1 (9 / 10 * T_external) * p1))

/-! ## Divergence recovery and post-solve symmetry
(MixA3Solver::diverged_recovery, lines 175-197;
MixA3Solver::post_solve_process, lines 125-146) -/

/-- Modelled from the spec: the circuit bridge (SPICE_CKT) is not under
src/; per the spec it owns its nodal state and exposes save_solution and
restore_solution, snapshotting that state. -/
structure CktBridge where
  values : List ℚ
  snapshot : List ℚ

/-- Modelled from the spec: save_solution snapshots the circuit nodal
state (save on accept). -/
def save_solution (c : CktBridge) : CktBridge := { c with snapshot := c.values }

/-- Modelled from the spec: restore_solution restores the circuit nodal
state from the snapshot (restore on divergence rollback). -/
def restore_solution (c : CktBridge) : CktBridge := { c with values := c.snapshot }

/-- A region as seen by the solve lifecycle: the per-node last accepted
values and the per-node diagonal scale estimates it stores. -/
structure LifeRegion where
  saved : List ℚ
  scale : List ℚ

/-- Modelled from the spec: SimulationRegion::EBM3_Fill_Value writes the
last accepted per-node values and diagonal scale estimates of the region
into the X and L blocks the region owns. -/
def EBM3_Fill_Value (rg : LifeRegion) : List ℚ × List ℚ := (rg.saved, rg.scale)

/-- Modelled from the spec: SimulationRegion::EBM3_Update_Solution
scatters the region block of X back into the per-node data. -/
def EBM3_Update_Solution (xr : List ℚ) (rg : LifeRegion) : LifeRegion :=
  { rg with saved := xr }

/-- Solver state touched by diverged_recovery and post_solve_process:
the regions, the region-partitioned blocks of X and L, the circuit block
of X, and the circuit bridge (which lives on the last processor). -/
structure LifeState where
  regions : List LifeRegion
  xdev : List (List ℚ)
  Ldev : List (List ℚ)
  xckt : List ℚ
  ckt : CktBridge

/-- Modelled from the spec: spice_fill_value writes the circuit nodal
state into the circuit block of X. -/
def spice_fill_value (c : CktBridge) : List ℚ := c.values

/-- MixA3Solver::diverged_recovery, lines 175-197: refill X and L from
every region (EBM3_Fill_Value), restore the circuit snapshot on the last
processor (restore_solution), then fill the circuit block of X
(spice_fill_value). -/
def diverged_recovery (s : LifeState) : LifeState :=
  let xdev := s.regions.map (fun rg => (EBM3_Fill_Value rg).1)
  let Ldev := s.regions.map (fun rg => (EBM3_Fill_Value rg).2)
  let ckt := restore_solution s.ckt
  { s with xdev := xdev, Ldev := Ldev, ckt := ckt, xckt := spice_fill_value ckt }

/-- MixA3Solver::post_solve_process, lines 125-146: scatter X back into
every region (EBM3_Update_Solution on the localised copy of x) and save
the circuit snapshot (save_solution). -/
def post_solve_process (s : LifeState) : LifeState :=
  { s with
    regions := (s.regions.zip s.xdev).map (fun rz => EBM3_Update_Solution rz.2 rz.1),
    ckt := save_solution s.ckt }

/-! ## Residual assembly (MixA3Solver::build_petsc_sens_residual, lines 929-1031) -/

/-- Modelled from the spec: PetscUtils::VecAddClearRow is not under src/;
per the spec the driver adds each src row into the corresponding dst row
and zeroes every clear row. -/
def VecAddClearRow (r : ℕ → ℚ) (src_row dst_row clear_row : List ℕ) : ℕ → ℚ :=
  let added := (src_row.zip dst_row).foldl
    (fun v sd => Function.update v sd.2 (v sd.2 + v sd.1)) r
  fun i => if i ∈ clear_row then 0 else added i

/-- The opaque assembly contributions of build_petsc_sens_residual, in
source order: the region governing equations (EBM3_Function), the region
time-derivative terms (EBM3_Time_Dependent_Function), the hanging-node
constraints (EBM3_Function_Hanging_Node), the circuit contribution
(build_spice_function) and the boundary-condition assembly
(EBM3_Function / MixA_EBM3_Function over all bcs).  Their bodies live
outside mixA3.cc; each is a vector transformer adding its rows into r. -/
structure ResidualPhases where
  regionF : (ℕ → ℚ) → (ℕ → ℚ)
  timeF : (ℕ → ℚ) → (ℕ → ℚ)
  hangingF : (ℕ → ℚ) → (ℕ → ℚ)
  spiceF : (ℕ → ℚ) → (ℕ → ℚ)
  bcF : (ℕ → ℚ) → (ℕ → ℚ)

/-- MixA3Solver::build_petsc_sens_residual, lines 929-1031: zero r,
region governing equations, time-derivative terms when
SolverSpecify::TimeDependent, hanging nodes, circuit, boundary-condition
preprocess applied through VecAddClearRow, boundary-condition assembly,
and finally VecPointwiseMult(r, r, L). -/
def build_petsc_sens_residual (timeDependent : Bool) (ph : ResidualPhases)
    (src_row dst_row clear_row : List ℕ) (L : ℕ → ℚ) : ℕ → ℚ :=
  let r0 : ℕ → ℚ := fun _ => 0
  let r1 := ph.regionF r0
  let r2 := if timeDependent then ph.timeF r1 else r1
  let r3 := ph.hangingF r2
  let r4 := ph.spiceF r3
  let r5 := VecAddClearRow r4 src_row dst_row clear_row
  let r6 := ph.bcF r5
  fun i => r6 i * L i

/-- The property claimed for build_petsc_sens_residual (claim C10): the
assembled residual is the stated composition in source order, and the
preprocess application adds each src row into its dst row and zeroes
every clear row. -/
def residualOrderProp (timeDependent : Bool) (ph : ResidualPhases)
    (src_row dst_row clear_row : List ℕ) (L : ℕ → ℚ) : Prop :=
  build_petsc_sens_residual timeDependent ph src_row dst_row clear_row L
    = (fun i =>
        ph.bcF (VecAddClearRow
          (ph.spiceF (ph.hangingF
            ((if timeDependent then ph.timeF else id) (ph.regionF fun _ => 0))))
          src_row dst_row clear_row) i * L i)
  ∧ ∀ r : ℕ → ℚ,
      (∀ i ∈ clear_row, VecAddClearRow r src_row dst_row clear_row i = 0)
      ∧ (∀ p ∈ src_row.zip dst_row, p.2 ∉ clear_row →
           VecAddClearRow r src_row dst_row clear_row p.2 = r p.2 + r p.1)
      ∧ (∀ i, i ∉ dst_row → i ∉ clear_row →
           VecAddClearRow r src_row dst_row clear_row i = r i)

/-- Concrete residual phases for the order witness: the region phase
writes 1 into row 0, the other phases pass the vector through. -/
def residualPhasesExample : ResidualPhases :=
  ⟨fun r => Function.update r 0 1, id, id, id, id⟩

/-! ## Jacobian assembly (MixA3Solver::build_petsc_sens_jacobian, lines 1038-1171) -/

/-- Distributed matrices modelled as functions from (row, column) to value. -/
def MatQ : Type := ℕ → ℕ → ℚ

/-- Modelled from the spec: PetscUtils::MatAddRowToRow adds each src row
into the corresponding dst row of the matrix. -/
def MatAddRowToRow (J : MatQ) (src_row dst_row : List ℕ) : MatQ :=
  (src_row.zip dst_row).foldl
    (fun M sd => fun i j => if i = sd.2 then M i j + M sd.1 j else M i j) J

/-- Modelled from the spec: PetscUtils::MatZeroRows zeroes every listed
row, placing the given value on the diagonal (the caller passes 0.0). -/
def MatZeroRows (J : MatQ) (clear_row : List ℕ) (diag : ℚ) : MatQ :=
  fun i j => if i ∈ clear_row then (if i = j then diag else 0) else J i j

/-- MatDiagonalScale(J, L, PETSC_NULL): scale row i of J by L i. -/
def MatDiagonalScaleLeft (L : ℕ → ℚ) (J : MatQ) : MatQ := fun i j => L i * J i j

/-- The opaque assembly contributions of build_petsc_sens_jacobian, in
source order: region Jacobians (EBM3_Jacobian), time-derivative
Jacobians (EBM3_Time_Dependent_Jacobian), hanging nodes
(EBM3_Jacobian_Hanging_Node), circuit (build_spice_jacobian), the
nonzero-pattern reservation of the first assembly (EBM3_Jacobian_Reserve)
and the boundary-condition assembly (EBM3_Jacobian over all bcs). -/
structure JacobianPhases where
  regionJ : MatQ → MatQ
  timeJ : MatQ → MatQ
  hangingJ : MatQ → MatQ
  spiceJ : MatQ → MatQ
  reserveJ : MatQ → MatQ
  bcJ : MatQ → MatQ

/-- MixA3Solver::build_petsc_sens_jacobian, lines 1038-1171: zero J,
region Jacobians, time-derivative terms when TimeDependent, hanging
nodes, circuit, the reservation pass before the first assembly, the
boundary-condition preprocess applied through MatAddRowToRow and
MatZeroRows, the boundary-condition assembly, and finally
MatDiagonalScale(J, L, PETSC_NULL).  The refresh of L from the Jacobian
diagonal (MatGetDiagonal + VecReciprocal, lines 1159-1160) is commented
out in the source, so the returned pair carries L through unchanged. -/
def build_petsc_sens_jacobian (timeDependent firstAssembleDone : Bool)
    (ph : JacobianPhases) (src_row dst_row clear_row : List ℕ)
    (L : ℕ → ℚ) : MatQ × (ℕ → ℚ) :=
  let J0 : MatQ := fun _ _ => 0
  let J1 := ph.regionJ J0
  let J2 := if timeDependent then ph.timeJ J1 else J1
  let J3 := ph.hangingJ J2
  let J4 := ph.spiceJ J3
  let J5 := if firstAssembleDone then J4 else ph.reserveJ J4
  let J6 := MatAddRowToRow J5 src_row dst_row
  let J7 := MatZeroRows J6 clear_row 0
  let J8 := ph.bcJ J7
  (MatDiagonalScaleLeft L J8, L)

/-- Concrete Jacobian phases: the region phase adds 2 at entry (0,0),
the other phases pass the matrix through. -/
def jacobianPhasesExample : JacobianPhases :=
  ⟨fun J => fun i j => if i = 0 ∧ j = 0 then J i j + 2 else J i j,
   id, id, id, id, id⟩

/-! ## Potential damping (MixA3Solver::potential_damping, lines 203-350)

This routine needs the logarithmic damping factor, so its scalars are
real numbers. -/

section RealModel

open scoped Classical

noncomputable section

/-- Values of the six EBM variables of one node block, over the reals. -/
@[ext]
structure VarValsR where
  psi : ℝ
  n   : ℝ
  p   : ℝ
  Tl  : ℝ
  Tn  : ℝ
  Tp  : ℝ

/-- One FVM node as potential_damping sees it: blocks of the previous
iterate x, the search direction y and the candidate iterate w. -/
@[ext]
structure PDNode where
  x : VarValsR
  y : VarValsR
  w : VarValsR

/-- A region as seen by potential_damping. -/
@[ext]
structure PDRegion where
  typ : RegionType
  adv : AdvModel
  nodes : List PDNode

/-- Kind of a circuit node; the SPICE_CKT predicates is_voltage_node and
is_current_node are modelled from the spec as the two kinds of nodal
unknowns of the modified nodal analysis. -/
inductive CktNodeKind where
  | voltage
  | current
deriving DecidableEq

/-- One circuit node on the last processor: its kind and its x, y, w
entries at the array offset of the node. -/
structure CktNode where
  kind : CktNodeKind
  x : ℝ
  y : ℝ
  w : ℝ

/-- Lines 246-249: n and p are clamped to onePerCMC (n part). -/
def clamp_n_step (onePerCMC : ℝ) (w : VarValsR) : VarValsR :=
  if w.n < onePerCMC then { w with n := onePerCMC } else w

/-- Lines 246-249: n and p are clamped to onePerCMC (p part). -/
def clamp_p_step (onePerCMC : ℝ) (w : VarValsR) : VarValsR :=
  if w.p < onePerCMC then { w with p := onePerCMC } else w

/-- Lines 252-256: Tl is clamped to T_external - 50 K when enabled. -/
def clamp_Tl_step (T_external Kunit : ℝ) (adv : AdvModel) (w : VarValsR) : VarValsR :=
  if adv.enable_Tl = true ∧ w.Tl < T_external - 50 * Kunit then
    { w with Tl := T_external - 50 * Kunit }
  else w

/-- Lines 258-267: the n*Tn row is recomputed through the temperature
blend (n0 and T0 read the previous iterate x, n1 the current candidate)
and clipped to 0.9*T_external. -/
def clamp_Tn_step (T_external : ℝ) (adv : AdvModel) (x w : VarValsR) : VarValsR :=
  if adv.enable_Tn = true then
    let n0 := x.n
    let n1 := w.n
    let T0 := x.Tn / n0
    let T1 := T0 * (1 - min (n1 / n0) 2) + w.Tn / n0
    let T1c := if T1 < 0.9 * T_external then 0.9 * T_external else T1
    { w with Tn := T1c * n1 }
  else w

/-- Lines 269-278: the p*Tp row analogously. -/
def clamp_Tp_step (T_external : ℝ) (adv : AdvModel) (x w : VarValsR) : VarValsR :=
  if adv.enable_Tp = true then
    let p0 := x.p
    let p1 := w.p
    let T0 := x.Tp / p0
    let T1 := T0 * (1 - min (p1 / p0) 2) + w.Tp / p0
    let T1c := if T1 < 0.9 * T_external then 0.9 * T_external else T1
    { w with Tp := T1c * p1 }
  else w

/-- Body of the first potential_damping loop for one semiconductor node
(lines 244-278): clamp n and p to onePerCMC, clamp Tl to
T_external - 50 K, and recompute the n*Tn and p*Tp rows through the
temperature blend, in source order; psi is untouched here. -/
def clamp_node (T_external onePerCMC Kunit : ℝ) (adv : AdvModel) (nd : PDNode) : PDNode :=
  { nd with
    w := clamp_Tp_step T_external adv nd.x
      (clamp_Tn_step T_external adv nd.x
        (clamp_Tl_step T_external Kunit adv
          (clamp_p_step onePerCMC
            (clamp_n_step onePerCMC nd.w)))) }

/-- The maximal psi change dV_max: the running maximum of |y_psi| over
the on-processor nodes of semiconductor regions (lines 220-243), after
the Parallel::max collective (line 283). -/
def dVmax (regions : List PDRegion) : ℝ :=
  regions.foldl
    (fun acc rg =>
      if rg.typ = RegionType.Semiconductor then
        rg.nodes.foldl (fun a nd => max a |nd.y.psi|) acc
      else acc) 0

/-- The logarithmic potential damping factor of line 289:
f = log(1 + dV/Vt) / (dV/Vt) with Vt = kb*T_external/e. -/
def dampingFactor (kb e T_external dV : ℝ) : ℝ :=
  let Vt := kb * T_external / e
  Real.log (1 + dV / Vt) / (dV / Vt)

/-- Overwrite the psi entry of one node with x_psi - f*y_psi (line 308). -/
def psi_damp (f : ℝ) (nd : PDNode) : PDNode :=
  { nd with w := { nd.w with psi := nd.x.psi - f * nd.y.psi } }

/-- Body of the circuit damping loop for one node (lines 316-339):
voltage-node increments larger than 5 are rescaled to magnitude 5,
current-node increments larger than 1 are rescaled to magnitude 1. -/
def ckt_damp (node : CktNode) : CktNode :=
  let w1 :=
    if node.kind = CktNodeKind.voltage ∧ 5 < |node.y| then
      node.x - 5 / |node.y| * node.y
    else node.w
  let w2 :=
    if node.kind = CktNodeKind.current ∧ 1 < |node.y| then
      node.x - 1 / |node.y| * node.y
    else w1
  { node with w := w2 }

/-- MixA3Solver::potential_damping, lines 203-350: the first loop clamps
the non-psi variables of every semiconductor node and accumulates
dV_max; after the Parallel::max reduction, when dV_max > 1e-6 the psi
entry of every node of every region is overwritten with x - f*y (the
restriction to semiconductor regions in line 296 is commented out in the
source); finally the circuit loop of the last processor damps the
circuit nodes. -/
def potential_damping (kb e T_external cm Kunit : ℝ)
    (regions : List PDRegion) (ckt : List CktNode) :
    List PDRegion × List CktNode :=
  let onePerCMC := 1 / cm ^ 3
  let regions1 := regions.map (fun rg =>
    if rg.typ = RegionType.Semiconductor then
      { rg with nodes := rg.nodes.map (clamp_node T_external onePerCMC Kunit rg.adv) }
    else rg)
  let dV := dVmax regions
  let regions2 :=
    if 1e-6 < dV then
      let f := dampingFactor kb e T_external dV
      regions1.map (fun rg => { rg with nodes := rg.nodes.map (psi_damp f) })
    else regions1
  (regions2, ckt.map ckt_damp)

/-- The amended claim C2, written from the words of the spec: the damped
candidate block of a node, with psi overwritten by x - f*y, n and p
clamped to onePerCMC, Tl clamped to T_external - 50 K, the n*Tn and p*Tp
rows recomputed through the temperature blend in semiconductor regions,
and all other non-psi components keeping their trial values. -/
def damped_node_spec (T_external onePerCMC Kunit : ℝ) (isSemi : Bool)
    (adv : AdvModel) (f : ℝ) (nd : PDNode) : PDNode :=
  if isSemi = true then
    let n1 := max nd.w.n onePerCMC
    let p1 := max nd.w.p onePerCMC
    let TlNew := if adv.enable_Tl = true then max nd.w.Tl (T_external - 50 * Kunit) else nd.w.Tl
    let TnNew :=
      if adv.enable_Tn = true then
        let T0 := nd.x.Tn / nd.x.n
        let T1 := T0 * (1 - min (n1 / nd.x.n) 2) + nd.w.Tn / nd.x.n
        max T1 (0.9 * T_external) * n1
      else nd.w.Tn
    let TpNew :=
      if adv.enable_Tp = true then
        let T0 := nd.x.Tp / nd.x.p
        let T1 := T0 * (1 - min (p1 / nd.x.p) 2) + nd.w.Tp / nd.x.p
        max T1 (0.9 * T_external) * p1
      else nd.w.Tp
    { nd with w :=
      { psi := nd.x.psi - f * nd.y.psi, n := n1, p := p1,
        Tl := TlNew, Tn := TnNew, Tp := TpNew } }
  else
    { nd with w := { nd.w with psi := nd.x.psi - f * nd.y.psi } }

/-- The device output claimed for potential_damping when dV_max exceeds
the 1e-6 threshold, per the amended claim C2. -/
def potential_damping_spec (kb e T_external cm Kunit : ℝ)
    (regions : List PDRegion) : List PDRegion :=
  let f := dampingFactor kb e T_external (dVmax regions)
  regions.map (fun rg =>
    { rg with
      nodes := rg.nodes.map
        (damped_node_spec T_external (1 / cm ^ 3) Kunit
          (decide (rg.typ = RegionType.Semiconductor)) rg.adv f) })

/-! ## Local truncation error norm (MixA3Solver::LTE_norm, lines 590-748)

Only the masking, scaling and norm part is modelled here; the predictor
phase feeding the LTE vector is covered by bdf1_predictor and the
bdf2 coefficient definitions above.  The scalars are real because of the
final square roots. -/

/-- One FVM node as LTE_norm sees it: the block of the solution x and
the block of the LTE vector. -/
structure LTENode where
  x : VarValsR
  lte : VarValsR

/-- A region as seen by LTE_norm. -/
structure LTERegion where
  typ : RegionType
  adv : AdvModel
  nodes : List LTENode

/-- One circuit node as LTE_norm sees it: the solution entry at
array_offset_x and the LTE entry at array_offset_f. -/
structure LTECktNode where
  x : ℝ
  lte : ℝ

/-- Modelled from the spec: ebm_n_variables of a region is the size of
its active variable tuple: psi, n, p and the enabled temperatures for a
semiconductor region, psi and optionally Tl for insulator, electrode and
metal regions, and nothing for vacuum regions. -/
def ebm_n_variables (typ : RegionType) (adv : AdvModel) : ℕ :=
  match typ with
  | RegionType.Semiconductor =>
      3 + (if adv.enable_Tl then 1 else 0) + (if adv.enable_Tn then 1 else 0)
        + (if adv.enable_Tp then 1 else 0)
  | RegionType.Vacuum => 0
  | _ => 1 + (if adv.enable_Tl then 1 else 0)

/-- Body of the LTE_norm error-estimate loop for one node
(lines 648-716): in a semiconductor region the psi entry is zeroed and
n, p and the enabled temperatures are divided by eps_r*x + eps_a; in
insulator, electrode and metal regions the psi entry is zeroed and Tl is
divided when enabled; vacuum regions are untouched. -/
def lte_scale_node (eps_r eps_a : ℝ) (typ : RegionType) (adv : AdvModel)
    (nd : LTENode) : LTENode :=
  match typ with
  | RegionType.Semiconductor =>
      { nd with lte :=
        { psi := 0,
          n := nd.lte.n / (eps_r * nd.x.n + eps_a),
          p := nd.lte.p / (eps_r * nd.x.p + eps_a),
          Tl := if adv.enable_Tl = true then nd.lte.Tl / (eps_r * nd.x.Tl + eps_a) else nd.lte.Tl,
          Tn := if adv.enable_Tn = true then nd.lte.Tn / (eps_r * nd.x.Tn + eps_a) else nd.lte.Tn,
          Tp := if adv.enable_Tp = true then nd.lte.Tp / (eps_r * nd.x.Tp + eps_a) else nd.lte.Tp } }
  | RegionType.Vacuum => nd
  | _ =>
      { nd with lte :=
        { nd.lte with
          psi := 0,
          Tl := if adv.enable_Tl = true then nd.lte.Tl / (eps_r * nd.x.Tl + eps_a) else nd.lte.Tl } }

/-- Sum of the squares of the entries that the block of one node
actually occupies in the LTE vector (its active variables). -/
def node_norm_sq (typ : RegionType) (adv : AdvModel) (v : VarValsR) : ℝ :=
  match typ with
  | RegionType.Semiconductor =>
      v.psi ^ 2 + v.n ^ 2 + v.p ^ 2
      + (if adv.enable_Tl = true then v.Tl ^ 2 else 0)
      + (if adv.enable_Tn = true then v.Tn ^ 2 else 0)
      + (if adv.enable_Tp = true then v.Tp ^ 2 else 0)
  | RegionType.Vacuum => 0
  | _ => v.psi ^ 2 + (if adv.enable_Tl = true then v.Tl ^ 2 else 0)

/-- The device state after the scaling loops of LTE_norm. -/
def lte_scaled_regions (eps_r eps_a : ℝ) (regions : List LTERegion) : List LTERegion :=
  regions.map (fun rg =>
    { rg with nodes := rg.nodes.map (lte_scale_node eps_r eps_a rg.typ rg.adv) })

/-- The circuit rows after the scaling loop of lines 721-730. -/
def lte_scaled_ckt (eps_r eps_a : ℝ) (ckt : List LTECktNode) : List LTECktNode :=
  ckt.map (fun c => { c with lte := c.lte / (eps_r * c.x + eps_a) })

/-- The component count N of lines 684, 709 and 729: per non-vacuum
region (ebm_n_variables - 1) entries per on-processor node, plus the
circuit nodes of the last processor, after the Parallel::sum collective. -/
def lte_count (regions : List LTERegion) (ckt : List LTECktNode) : ℕ :=
  (regions.map (fun rg => (ebm_n_variables rg.typ rg.adv - 1) * rg.nodes.length)).sum
  + ckt.length

/-- The squared 2-norm of the whole LTE vector after scaling. -/
def lte_norm_sq (regions : List LTERegion) (ckt : List LTECktNode) : ℝ :=
  (regions.map (fun rg =>
    (rg.nodes.map (fun nd => node_norm_sq rg.typ rg.adv nd.lte)).sum)).sum
  + (ckt.map (fun c => c.lte ^ 2)).sum

/-- MixA3Solver::LTE_norm, scaling and norm part (lines 638-747): mask
the psi rows, divide the remaining rows by eps_r*x + eps_a, take the
2-norm of the LTE vector, and return it divided by sqrt N when N > 0 and
1.0 otherwise. -/
def LTE_norm (eps_r eps_a : ℝ) (regions : List LTERegion) (ckt : List LTECktNode) : ℝ :=
  let regions2 := lte_scaled_regions eps_r eps_a regions
  let ckt2 := lte_scaled_ckt eps_r eps_a ckt
  let N := lte_count regions ckt
  let r := Real.sqrt (lte_norm_sq regions2 ckt2)
  if 0 < N then r / Real.sqrt N else 1

end

end RealModel

/-! ## Concrete states used by the evaluation theorems below -/

/-- All advanced-model flags off. -/
def advOff : AdvModel := ⟨false, false, false⟩

/-- All advanced-model flags on. -/
def advOn : AdvModel := ⟨true, true, true⟩

/-- A node whose electron density fell below one eighth of its last
value: n = 1, n_last = 16; p steady at 1. -/
def violatingNode : NodeData := ⟨1, 16, 1, 1, 1, 1, 1, 1, 1, 1⟩

/-- A steady node: every field equal to its last value, all positive. -/
def steadyNode : NodeData := ⟨1, 1, 1, 1, 1, 1, 1, 1, 1, 1⟩

/-- A single-node semiconductor device with the violating history. -/
def violatingSystem : List HRegion :=
  [⟨RegionType.Semiconductor, advOff, [violatingNode]⟩]

/-- A single-node semiconductor device with the steady history. -/
def steadySystem : List HRegion :=
  [⟨RegionType.Semiconductor, advOff, [steadyNode]⟩]

/-- A node for exercising positive_density_damping: the candidate lies
on the Newton segment (|w.psi - x.psi| = 2 <= |y.psi| = 3) and its
densities fell below onePerCMC = 1. -/
def pddExampleNode : DampNode :=
  ⟨⟨0, 2, 2, 300, 600, 600⟩, ⟨3, 0, 0, 0, 0, 0⟩, ⟨2, 1/2, 1/2, 200, 500, 500⟩⟩

/-- A lifecycle state with one region for the recovery round trip. -/
def lifeExample : LifeState :=
  ⟨[⟨[1], [2]⟩], [[3]], [[4]], [9], ⟨[5], [7]⟩⟩

section RealModel

open scoped Classical

noncomputable section

/-- A one-node semiconductor region for potential_damping: the search
direction has |y_psi| = 1 (so dV_max = 1 > 1e-6) and the trial candidate
has w_n = 0, below onePerCMC. -/
def pdExampleRegion : PDRegion :=
  ⟨RegionType.Semiconductor, ⟨false, false, false⟩,
   [⟨⟨0, 3, 3, 300, 600, 600⟩, ⟨1, 0, 0, 0, 0, 0⟩, ⟨2, 0, 3, 300, 600, 600⟩⟩]⟩

/-- A voltage circuit node whose Newton increment is 7 > 5. -/
def cktExampleNode : CktNode := ⟨CktNodeKind.voltage, 2, 7, -5⟩

/-- An LTE node whose solution component is negative: x_n = -2 with LTE
entry e_n = 1, exposing the absence of an absolute value in the scaling
denominator. -/
def lteExampleNode : LTENode := ⟨⟨0, -2, 1, 1, 1, 1⟩, ⟨0, 1, 0, 0, 0, 0⟩⟩

/-- An LTE node with positive solution entries, for the witness. -/
def lteWitnessNode : LTENode := ⟨⟨1, 2, 3, 4, 5, 6⟩, ⟨1, 1, 1, 1, 1, 1⟩⟩

end

end RealModel

/-! # Theorems -/

/-! ## Generic helper lemmas -/

/-- The clamp pattern `if a < b then b else a` is the maximum. -/
theorem if_lt_eq_max {α : Type} [LinearOrder α] (a b : α) :
    (if a < b then b else a) = max a b := by
  rcases lt_or_le a b with h | h
  · rw [if_pos h, max_eq_right h.le]
  · rw [if_neg (not_lt.mpr h), max_eq_left h]

/-! ## C1: the BDF2 positivity test -/

/-- C1: BDF2_positive_defined is claimed to return true exactly when
every semiconductor node satisfies a*xi_new >= b*xi_last, in particular
false when some node has n_new < n_last/8 with dt = dt_last, and true in
the steady case.  The code ends with `return failure_count != 0` and so
returns the exact negation: with dt = dt_last = 1 it returns true on the
violating history (n = 1, n_last = 16, where the claim and the comment
of the function, test if BDF2 can be used, demand false) and false on
the steady history (where they demand true). -/
theorem BDF2_positive_defined_returns_inverted :
    BDF2_positive_defined 1 1 violatingSystem = true
    ∧ BDF2_positive_defined 1 1 steadySystem = false := by
  constructor <;>
  · simp only [BDF2_positive_defined, failureCount, nodeFailures,
      violatingSystem, steadySystem, violatingNode, steadyNode, advOff,
      List.map_cons, List.map_nil, List.sum_cons, List.sum_nil,
      decide_eq_true_eq, decide_eq_false_iff_not]
    norm_num

/-! ## C8: the BDF1 predictor on a steady history -/

/-- C8: for positive step sizes, the BDF1 predictor
xp = (1 + hn/hn1)*x_n - (hn/hn1)*x_n1 of LTE_norm reproduces x_n exactly
on a steady history (x_n1 = x_n). -/
theorem bdf1_predictor_steady (hn hn1 : ℚ) (x_n x_n1 : ℕ → ℚ)
    (_hhn : 0 < hn) (_hhn1 : 0 < hn1) (hsteady : x_n1 = x_n) :
    bdf1_predictor hn hn1 x_n x_n1 = x_n := by
  subst hsteady
  funext i
  simp only [bdf1_predictor, vecAXPY]
  ring

/-- Witness for C8 at hn = hn1 = 1 and the constant history 2. -/
theorem bdf1_predictor_steady_witness :
    0 < (1 : ℚ) ∧ bdf1_predictor 1 1 (fun _ => 2) (fun _ => 2) = (fun _ => 2) :=
  ⟨by decide, bdf1_predictor_steady 1 1 (fun _ => 2) (fun _ => 2) (by decide) (by decide) rfl⟩

/-! ## C9: the BDF2 higher-order predictor coefficients -/

/-- C9: for positive step sizes the coefficients cn, cn1, cn2 of the
higher-order BDF2 predictor of LTE_norm sum to one and match the first
moment: the states x_n, x_n1, x_n2 live at times 0, -hn1, -hn1-hn2, and
cn*0 + cn1*(-hn1) + cn2*(-hn1-hn2) = hn. -/
theorem bdf2_coefficient_identities (hn hn1 hn2 : ℚ)
    (_hhn : 0 < hn) (hhn1 : 0 < hn1) (hhn2 : 0 < hn2) :
    bdf2_cn hn hn1 hn2 + bdf2_cn1 hn hn1 hn2 + bdf2_cn2 hn hn1 hn2 = 1
    ∧ bdf2_cn hn hn1 hn2 * 0 + bdf2_cn1 hn hn1 hn2 * (-hn1)
        + bdf2_cn2 hn hn1 hn2 * (-hn1 - hn2) = hn := by
  have h1 : hn1 ≠ 0 := ne_of_gt hhn1
  have h2 : hn2 ≠ 0 := ne_of_gt hhn2
  have h12 : hn1 + hn2 ≠ 0 := ne_of_gt (add_pos hhn1 hhn2)
  constructor <;>
  · simp only [bdf2_cn, bdf2_cn1, bdf2_cn2]
    field_simp
    ring

/-- Witness for C9 at hn = hn1 = hn2 = 1. -/
theorem bdf2_coefficient_identities_witness :
    0 < (1 : ℚ)
    ∧ (bdf2_cn 1 1 1 + bdf2_cn1 1 1 1 + bdf2_cn2 1 1 1 = 1
       ∧ bdf2_cn 1 1 1 * 0 + bdf2_cn1 1 1 1 * (-1)
           + bdf2_cn2 1 1 1 * (-1 - 1) = 1) :=
  ⟨by decide, bdf2_coefficient_identities 1 1 1 (by decide) (by decide) (by decide)⟩

/-! ## C5: positive-density damping -/

/-- The sign function has absolute value at most one. -/
theorem abs_sgn_le_one (q : ℚ) : |sgn q| ≤ 1 := by
  unfold sgn
  split_ifs <;> norm_num

/-- Fields of pdd_psi_step: only psi is written. -/
@[simp] theorem pdd_psi_step_psi (x y w : VarValsQ) :
    (pdd_psi_step x y w).psi
      = if 1 < |y.psi| then x.psi - sgn y.psi * 1 else w.psi := by
  unfold pdd_psi_step; split_ifs <;> rfl

@[simp] theorem pdd_psi_step_n (x y w : VarValsQ) : (pdd_psi_step x y w).n = w.n := by
  unfold pdd_psi_step; split_ifs <;> rfl

@[simp] theorem pdd_psi_step_p (x y w : VarValsQ) : (pdd_psi_step x y w).p = w.p := by
  unfold pdd_psi_step; split_ifs <;> rfl

@[simp] theorem pdd_psi_step_Tl (x y w : VarValsQ) : (pdd_psi_step x y w).Tl = w.Tl := by
  unfold pdd_psi_step; split_ifs <;> rfl

@[simp] theorem pdd_psi_step_Tn (x y w : VarValsQ) : (pdd_psi_step x y w).Tn = w.Tn := by
  unfold pdd_psi_step; split_ifs <;> rfl

@[simp] theorem pdd_psi_step_Tp (x y w : VarValsQ) : (pdd_psi_step x y w).Tp = w.Tp := by
  unfold pdd_psi_step; split_ifs <;> rfl

/-- Fields of pdd_n_step: only n is written, by a clamp. -/
@[simp] theorem pdd_n_step_n (c : ℚ) (w : VarValsQ) : (pdd_n_step c w).n = max w.n c := by
  unfold pdd_n_step; split_ifs with h
  · exact (max_eq_right h.le).symm
  · exact (max_eq_left (not_lt.mp h)).symm

@[simp] theorem pdd_n_step_psi (c : ℚ) (w : VarValsQ) : (pdd_n_step c w).psi = w.psi := by
  unfold pdd_n_step; split_ifs <;> rfl

@[simp] theorem pdd_n_step_p (c : ℚ) (w : VarValsQ) : (pdd_n_step c w).p = w.p := by
  unfold pdd_n_step; split_ifs <;> rfl

@[simp] theorem pdd_n_step_Tl (c : ℚ) (w : VarValsQ) : (pdd_n_step c w).Tl = w.Tl := by
  unfold pdd_n_step; split_ifs <;> rfl

@[simp] theorem pdd_n_step_Tn (c : ℚ) (w : VarValsQ) : (pdd_n_step c w).Tn = w.Tn := by
  unfold pdd_n_step; split_ifs <;> rfl

@[simp] theorem pdd_n_step_Tp (c : ℚ) (w : VarValsQ) : (pdd_n_step c w).Tp = w.Tp := by
  unfold pdd_n_step; split_ifs <;> rfl

/-- Fields of pdd_p_step: only p is written, by a clamp. -/
@[simp] theorem pdd_p_step_p (c : ℚ) (w : VarValsQ) : (pdd_p_step c w).p = max w.p c := by
  unfold pdd_p_step; split_ifs with h
  · exact (max_eq_right h.le).symm
  · exact (max_eq_left (not_lt.mp h)).symm

@[simp] theorem pdd_p_step_psi (c : ℚ) (w : VarValsQ) : (pdd_p_step c w).psi = w.psi := by
  unfold pdd_p_step; split_ifs <;> rfl

@[simp] theorem pdd_p_step_n (c : ℚ) (w : VarValsQ) : (pdd_p_step c w).n = w.n := by
  unfold pdd_p_step; split_ifs <;> rfl

@[simp] theorem pdd_p_step_Tl (c : ℚ) (w : VarValsQ) : (pdd_p_step c w).Tl = w.Tl := by
  unfold pdd_p_step; split_ifs <;> rfl

@[simp] theorem pdd_p_step_Tn (c : ℚ) (w : VarValsQ) : (pdd_p_step c w).Tn = w.Tn := by
  unfold pdd_p_step; split_ifs <;> rfl

@[simp] theorem pdd_p_step_Tp (c : ℚ) (w : VarValsQ) : (pdd_p_step c w).Tp = w.Tp := by
  unfold pdd_p_step; split_ifs <;> rfl

/-- Fields of pdd_Tl_step: only Tl is written, by a clamp when enabled. -/
@[simp] theorem pdd_Tl_step_Tl (T Ku : ℚ) (adv : AdvModel) (w : VarValsQ) :
    (pdd_Tl_step T Ku adv w).Tl
      = if adv.enable_Tl = true then max w.Tl (T - 50 * Ku) else w.Tl := by
  unfold pdd_Tl_step
  cases h : adv.enable_Tl
  · simp [h]
  · simp only [h, true_and, if_true]
    split_ifs with h2
    · exact (max_eq_right h2.le).symm
    · exact (max_eq_left (not_lt.mp h2)).symm

@[simp] theorem pdd_Tl_step_psi (T Ku : ℚ) (adv : AdvModel) (w : VarValsQ) :
    (pdd_Tl_step T Ku adv w).psi = w.psi := by
  unfold pdd_Tl_step; split_ifs <;> rfl

@[simp] theorem pdd_Tl_step_n (T Ku : ℚ) (adv : AdvModel) (w : VarValsQ) :
    (pdd_Tl_step T Ku adv w).n = w.n := by
  unfold pdd_Tl_step; split_ifs <;> rfl

@[simp] theorem pdd_Tl_step_p (T Ku : ℚ) (adv : AdvModel) (w : VarValsQ) :
    (pdd_Tl_step T Ku adv w).p = w.p := by
  unfold pdd_Tl_step; split_ifs <;> rfl

@[simp] theorem pdd_Tl_step_Tn (T Ku : ℚ) (adv : AdvModel) (w : VarValsQ) :
    (pdd_Tl_step T Ku adv w).Tn = w.Tn := by
  unfold pdd_Tl_step; split_ifs <;> rfl

@[simp] theorem pdd_Tl_step_Tp (T Ku : ℚ) (adv : AdvModel) (w : VarValsQ) :
    (pdd_Tl_step T Ku adv w).Tp = w.Tp := by
  unfold pdd_Tl_step; split_ifs <;> rfl

/-- Fields of pdd_Tn_step: only Tn is written, by the clipped blend when
enabled. -/
@[simp] theorem pdd_Tn_step_Tn (T : ℚ) (adv : AdvModel) (x w : VarValsQ) :
    (pdd_Tn_step T adv x w).Tn
      = if adv.enable_Tn = true then
          max (x.Tn / x.n * (1 - min (w.n / x.n) 2) + w.Tn / x.n) (9 / 10 * T) * w.n
        else w.Tn := by
  unfold pdd_Tn_step
  cases h : adv.enable_Tn
  · simp [h]
  · simp only [h, if_true]
    split_ifs with h2
    · exact congrArg (fun z => z * w.n) (max_eq_right h2.le).symm
    · exact congrArg (fun z => z * w.n) (max_eq_left (not_lt.mp h2)).symm

@[simp] theorem pdd_Tn_step_psi (T : ℚ) (adv : AdvModel) (x w : VarValsQ) :
    (pdd_Tn_step T adv x w).psi = w.psi := by
  unfold pdd_Tn_step; split_ifs <;> rfl

@[simp] theorem pdd_Tn_step_n (T : ℚ) (adv : AdvModel) (x w : VarValsQ) :
    (pdd_Tn_step T adv x w).n = w.n := by
  unfold pdd_Tn_step; split_ifs <;> rfl

@[simp] theorem pdd_Tn_step_p (T : ℚ) (adv : AdvModel) (x w : VarValsQ) :
    (pdd_Tn_step T adv x w).p = w.p := by
  unfold pdd_Tn_step; split_ifs <;> rfl

@[simp] theorem pdd_Tn_step_Tl (T : ℚ) (adv : AdvModel) (x w : VarValsQ) :
    (pdd_Tn_step T adv x w).Tl = w.Tl := by
  unfold pdd_Tn_step; split_ifs <;> rfl

@[simp] theorem pdd_Tn_step_Tp (T : ℚ) (adv : AdvModel) (x w : VarValsQ) :
    (pdd_Tn_step T adv x w).Tp = w.Tp := by
  unfold pdd_Tn_step; split_ifs <;> rfl

/-- Fields of pdd_Tp_step: only Tp is written, by the clipped blend when
enabled. -/
@[simp] theorem pdd_Tp_step_Tp (T : ℚ) (adv : AdvModel) (x w : VarValsQ) :
    (pdd_Tp_step T adv x w).Tp
      = if adv.enable_Tp = true then
          max (x.Tp / x.p * (1 - min (w.p / x.p) 2) + w.Tp / x.p) (9 / 10 * T) * w.p
        else w.Tp := by
  unfold pdd_Tp_step
  cases h : adv.enable_Tp
  · simp [h]
  · simp only [h, if_true]
    split_ifs with h2
    · exact congrArg (fun z => z * w.p) (max_eq_right h2.le).symm
    · exact congrArg (fun z => z * w.p) (max_eq_left (not_lt.mp h2)).symm

@[simp] theorem pdd_Tp_step_psi (T : ℚ) (adv : AdvModel) (x w : VarValsQ) :
    (pdd_Tp_step T adv x w).psi = w.psi := by
  unfold pdd_Tp_step; split_ifs <;> rfl

@[simp] theorem pdd_Tp_step_n (T : ℚ) (adv : AdvModel) (x w : VarValsQ) :
    (pdd_Tp_step T adv x w).n = w.n := by
  unfold pdd_Tp_step; split_ifs <;> rfl

@[simp] theorem pdd_Tp_step_p (T : ℚ) (adv : AdvModel) (x w : VarValsQ) :
    (pdd_Tp_step T adv x w).p = w.p := by
  unfold pdd_Tp_step; split_ifs <;> rfl

@[simp] theorem pdd_Tp_step_Tl (T : ℚ) (adv : AdvModel) (x w : VarValsQ) :
    (pdd_Tp_step T adv x w).Tl = w.Tl := by
  unfold pdd_Tp_step; split_ifs <;> rfl

@[simp] theorem pdd_Tp_step_Tn (T : ℚ) (adv : AdvModel) (x w : VarValsQ) :
    (pdd_Tp_step T adv x w).Tn = w.Tn := by
  unfold pdd_Tp_step; split_ifs <;> rfl

/-- The psi entry produced by pdd_node. -/
theorem pdd_node_psi (T c Ku : ℚ) (adv : AdvModel) (nd : DampNode) :
    (pdd_node T c Ku adv nd).psi
      = if 1 < |nd.y.psi| then nd.x.psi - sgn nd.y.psi * 1 else nd.w.psi := by
  simp [pdd_node]

/-- The n entry produced by pdd_node. -/
theorem pdd_node_n (T c Ku : ℚ) (adv : AdvModel) (nd : DampNode) :
    (pdd_node T c Ku adv nd).n = max nd.w.n c := by
  simp [pdd_node]

/-- The p entry produced by pdd_node. -/
theorem pdd_node_p (T c Ku : ℚ) (adv : AdvModel) (nd : DampNode) :
    (pdd_node T c Ku adv nd).p = max nd.w.p c := by
  simp [pdd_node]

/-- The Tl entry produced by pdd_node. -/
theorem pdd_node_Tl (T c Ku : ℚ) (adv : AdvModel) (nd : DampNode) :
    (pdd_node T c Ku adv nd).Tl
      = if adv.enable_Tl = true then max nd.w.Tl (T - 50 * Ku) else nd.w.Tl := by
  simp [pdd_node]

/-- The Tn entry produced by pdd_node. -/
theorem pdd_node_Tn (T c Ku : ℚ) (adv : AdvModel) (nd : DampNode) :
    (pdd_node T c Ku adv nd).Tn
      = if adv.enable_Tn = true then
          max (nd.x.Tn / nd.x.n * (1 - min (max nd.w.n c / nd.x.n) 2)
                + nd.w.Tn / nd.x.n) (9 / 10 * T) * max nd.w.n c
        else nd.w.Tn := by
  simp [pdd_node]

/-- The Tp entry produced by pdd_node. -/
theorem pdd_node_Tp (T c Ku : ℚ) (adv : AdvModel) (nd : DampNode) :
    (pdd_node T c Ku adv nd).Tp
      = if adv.enable_Tp = true then
          max (nd.x.Tp / nd.x.p * (1 - min (max nd.w.p c / nd.x.p) 2)
                + nd.w.Tp / nd.x.p) (9 / 10 * T) * max nd.w.p c
        else nd.w.Tp := by
  simp [pdd_node]

/-- C5: positive_density_damping rewrites the candidate block of every
semiconductor on-processor node through pdd_node, and for a candidate on
the Newton segment (|w_psi - x_psi| <= |y_psi|, as produced by the line
search) the damped block satisfies the claimed bounds: the psi change is
at most 1 V and equals x - sign(y)*1 when |y_psi| > 1 V, n and p are at
least onePerCMC, Tl is at least T_external - 50 K when enabled, and the
n*Tn and p*Tp rows equal the clipped temperature blend when enabled. -/
theorem positive_density_damping_claims (T c Ku : ℚ) (regions : List DampRegion) :
    positive_density_damping T c Ku regions
      = regions.map (fun rg =>
          if rg.typ = RegionType.Semiconductor then
            { rg with nodes := rg.nodes.map (fun nd =>
                { nd with w := pdd_node T c Ku rg.adv nd }) }
          else rg)
    ∧ ∀ (adv : AdvModel) (nd : DampNode),
        |nd.w.psi - nd.x.psi| ≤ |nd.y.psi| → pddNodeProp T c Ku adv nd := by
  refine ⟨rfl, fun adv nd hseg => ?_⟩
  simp only [pddNodeProp]
  refine ⟨?_, ?_, ?_, ?_, ?_, ?_, ?_⟩
  · rw [pdd_node_psi]
    split_ifs with hy
    · have h : nd.x.psi - sgn nd.y.psi * 1 - nd.x.psi = -(sgn nd.y.psi) := by ring
      rw [h, abs_neg]
      exact abs_sgn_le_one _
    · exact hseg.trans (not_lt.mp hy)
  · intro hy
    rw [pdd_node_psi, if_pos hy]
  · rw [pdd_node_n]
    exact le_max_right _ _
  · rw [pdd_node_p]
    exact le_max_right _ _
  · intro hTl
    rw [pdd_node_Tl, if_pos hTl]
    exact le_max_right _ _
  · intro hTn
    rw [pdd_node_Tn, if_pos hTn]
  · intro hTp
    rw [pdd_node_Tp, if_pos hTp]

/-- The example node lies on the Newton segment. -/
theorem pddExampleSeg :
    |pddExampleNode.w.psi - pddExampleNode.x.psi| ≤ |pddExampleNode.y.psi| := by
  norm_num [pddExampleNode]

/-- Witness for C5 at a concrete on-segment node with all advanced
models enabled. -/
theorem positive_density_damping_claims_witness :
    |pddExampleNode.w.psi - pddExampleNode.x.psi| ≤ |pddExampleNode.y.psi|
    ∧ pddNodeProp 300 1 1 advOn pddExampleNode :=
  ⟨pddExampleSeg,
   (positive_density_damping_claims 300 1 1 []).2 advOn pddExampleNode pddExampleSeg⟩

/-! ## C6: divergence recovery against post-solve -/

/-- Updating regions from the region blocks of X and reading the stored
values back yields those blocks. -/
theorem saved_of_update (l1 : List LifeRegion) (l2 : List (List ℚ))
    (h : l1.length = l2.length) :
    ((l1.zip l2).map (fun rz => EBM3_Update_Solution rz.2 rz.1)).map
        (fun rg => rg.saved) = l2 := by
  induction l1 generalizing l2 with
  | nil =>
      cases l2 with
      | nil => rfl
      | cons b bs => simp at h
  | cons a as ih =>
      cases l2 with
      | nil => simp at h
      | cons b bs =>
          simp only [List.zip_cons_cons, List.map_cons, List.cons.injEq]
          exact ⟨rfl, ih bs (by simpa using h)⟩

/-- Updating regions from the region blocks of X leaves the stored scale
estimates unchanged. -/
theorem scale_of_update (l1 : List LifeRegion) (l2 : List (List ℚ))
    (h : l1.length = l2.length) :
    ((l1.zip l2).map (fun rz => EBM3_Update_Solution rz.2 rz.1)).map
        (fun rg => rg.scale) = l1.map (fun rg => rg.scale) := by
  induction l1 generalizing l2 with
  | nil =>
      cases l2 with
      | nil => rfl
      | cons b bs => simp at h
  | cons a as ih =>
      cases l2 with
      | nil => simp at h
      | cons b bs =>
          simp only [List.zip_cons_cons, List.map_cons, List.cons.injEq]
          exact ⟨rfl, ih bs (by simpa using h)⟩

/-- C6: diverged_recovery is the rollback symmetric to
post_solve_process.  After an accepted solve (post_solve_process:
scatter X into the regions, save the circuit snapshot) a divergence
rollback (diverged_recovery: refill X and L from the regions on the last
accepted state, restore the circuit snapshot on the last processor,
refill the circuit block of X) recovers exactly the accepted device
solution and circuit state. -/
theorem diverged_recovery_symmetry (s : LifeState)
    (hlen : s.regions.length = s.xdev.length) :
    (diverged_recovery (post_solve_process s)).xdev = s.xdev
    ∧ (diverged_recovery (post_solve_process s)).Ldev
        = s.regions.map (fun rg => rg.scale)
    ∧ (diverged_recovery (post_solve_process s)).ckt.values = s.ckt.values
    ∧ (diverged_recovery (post_solve_process s)).xckt = s.ckt.values
    ∧ (post_solve_process s).ckt.snapshot = s.ckt.values
    ∧ (post_solve_process s).regions.map (fun rg => rg.saved) = s.xdev := by
  refine ⟨?_, ?_, rfl, rfl, rfl, ?_⟩
  · simpa [diverged_recovery, post_solve_process, EBM3_Fill_Value] using
      saved_of_update s.regions s.xdev hlen
  · simpa [diverged_recovery, post_solve_process, EBM3_Fill_Value] using
      scale_of_update s.regions s.xdev hlen
  · simpa [post_solve_process] using saved_of_update s.regions s.xdev hlen

/-- Witness for C6 at a concrete one-region state. -/
theorem diverged_recovery_symmetry_witness :
    lifeExample.regions.length = lifeExample.xdev.length
    ∧ ((diverged_recovery (post_solve_process lifeExample)).xdev = lifeExample.xdev
       ∧ (diverged_recovery (post_solve_process lifeExample)).Ldev
           = lifeExample.regions.map (fun rg => rg.scale)
       ∧ (diverged_recovery (post_solve_process lifeExample)).ckt.values
           = lifeExample.ckt.values
       ∧ (diverged_recovery (post_solve_process lifeExample)).xckt
           = lifeExample.ckt.values
       ∧ (post_solve_process lifeExample).ckt.snapshot = lifeExample.ckt.values
       ∧ (post_solve_process lifeExample).regions.map (fun rg => rg.saved)
           = lifeExample.xdev) :=
  ⟨rfl, diverged_recovery_symmetry lifeExample rfl⟩

/-! ## C10: residual assembly order -/

/-- A row that is not a destination row is untouched by the row-add fold. -/
theorem foldl_addrow_not_dst (ps : List (ℕ × ℕ)) (v : ℕ → ℚ) (i : ℕ)
    (hi : i ∉ ps.map Prod.snd) :
    (ps.foldl (fun w sd => Function.update w sd.2 (w sd.2 + w sd.1)) v) i = v i := by
  induction ps generalizing v with
  | nil => rfl
  | cons q qs ih =>
      simp only [List.map_cons, List.mem_cons, not_or] at hi
      simp only [List.foldl_cons]
      rw [ih _ hi.2]
      exact Function.update_noteq hi.1 _ v

/-- With pairwise distinct destination rows that are disjoint from the
source rows, the row-add fold adds each source row into its destination
row. -/
theorem foldl_addrow_dst (ps : List (ℕ × ℕ))
    (hnd : (ps.map Prod.snd).Nodup)
    (hsrc : ∀ q ∈ ps, q.1 ∉ ps.map Prod.snd) :
    ∀ (v : ℕ → ℚ), ∀ q ∈ ps,
      (ps.foldl (fun w sd => Function.update w sd.2 (w sd.2 + w sd.1)) v) q.2
        = v q.2 + v q.1 := by
  induction ps with
  | nil => intro v q hq; cases hq
  | cons q0 qs ih =>
      intro v q hq
      simp only [List.map_cons, List.nodup_cons] at hnd
      simp only [List.foldl_cons]
      rcases List.mem_cons.mp hq with hq0 | hqs
      · subst hq0
        rw [foldl_addrow_not_dst qs _ _ hnd.1]
        simp [Function.update_same]
      · have hsrc2 : ∀ p ∈ qs, p.1 ∉ qs.map Prod.snd := by
          intro p hp
          have := hsrc p (List.mem_cons_of_mem _ hp)
          simp only [List.map_cons, List.mem_cons, not_or] at this
          exact this.2
        have hne2 : q.2 ≠ q0.2 := by
          intro hcontra
          exact hnd.1 (hcontra ▸ List.mem_map_of_mem Prod.snd hqs)
        have hne1 : q.1 ≠ q0.2 := by
          have := hsrc q (List.mem_cons_of_mem _ hqs)
          simp only [List.map_cons, List.mem_cons, not_or] at this
          exact this.1
        rw [ih hnd.2 hsrc2 _ q hqs, Function.update_noteq hne2, Function.update_noteq hne1]

/-- C10: build_petsc_sens_residual assembles in exactly the claimed
order: zero, region governing equations, time-derivative terms only when
TimeDependent, hanging nodes, circuit, boundary preprocess applied as
row adds and row clears, boundary assembly, and a final pointwise
multiplication by L; and the preprocess application has the claimed
add/clear semantics when the destination rows are pairwise distinct and
disjoint from the source rows. -/
theorem build_petsc_sens_residual_order (timeDependent : Bool) (ph : ResidualPhases)
    (src_row dst_row clear_row : List ℕ) (L : ℕ → ℚ)
    (hlen : src_row.length = dst_row.length) (hnd : dst_row.Nodup)
    (hdisj : ∀ i ∈ src_row, i ∉ dst_row) :
    residualOrderProp timeDependent ph src_row dst_row clear_row L := by
  have hsnd : (src_row.zip dst_row).map Prod.snd = dst_row :=
    List.map_snd_zip src_row dst_row (le_of_eq hlen.symm)
  constructor
  · cases timeDependent <;> rfl
  · intro r
    refine ⟨?_, ?_, ?_⟩
    · intro i hi
      simp [VecAddClearRow, hi]
    · intro p hp hpc
      obtain ⟨a, b⟩ := p
      simp only [VecAddClearRow]
      rw [if_neg hpc]
      refine foldl_addrow_dst (src_row.zip dst_row) ?_ ?_ r ⟨a, b⟩ hp
      · rw [hsnd]; exact hnd
      · intro q hq
        rw [hsnd]
        obtain ⟨qa, qb⟩ := q
        exact hdisj qa (List.of_mem_zip hq).1
    · intro i hid hic
      simp only [VecAddClearRow]
      rw [if_neg hic]
      exact foldl_addrow_not_dst _ _ _ (by rw [hsnd]; exact hid)

/-- Witness for C10 at concrete row lists and phases. -/
theorem build_petsc_sens_residual_order_witness :
    ([0] : List ℕ).length = ([1] : List ℕ).length
    ∧ residualOrderProp true residualPhasesExample [0] [1] [2] (fun _ => 1) :=
  ⟨rfl, build_petsc_sens_residual_order true residualPhasesExample [0] [1] [2]
    (fun _ => 1) rfl (by decide) (by decide)⟩

/-! ## C3: the row-scaling vector across Jacobian assembly -/

/-- Counterexample to C3 as stated: after an assembly in which the
governing equations put 2 on the diagonal entry (0,0) and L enters as
the constant 1, the scaling vector still holds 1, not the reciprocal of
the just-assembled diagonal (the refresh in lines 1159-1160 of the
source is commented out). -/
theorem jacobian_L_not_reciprocal_diag :
    (build_petsc_sens_jacobian false true jacobianPhasesExample [] [] []
        (fun _ => 1)).2 0
      ≠ ((build_petsc_sens_jacobian false true jacobianPhasesExample [] [] []
        (fun _ => 1)).1 0 0)⁻¹ := by
  norm_num [build_petsc_sens_jacobian, jacobianPhasesExample, MatAddRowToRow,
    MatZeroRows, MatDiagonalScaleLeft]

/-- C3 amended: build_petsc_sens_jacobian never writes the row-scaling
vector L (the refresh from the Jacobian diagonal is commented out in the
source); it assembles the Jacobian in source order and row-scales it by
the incoming L. -/
theorem build_petsc_sens_jacobian_L_unchanged
    (timeDependent firstAssembleDone : Bool) (ph : JacobianPhases)
    (src_row dst_row clear_row : List ℕ) (L : ℕ → ℚ) :
    (build_petsc_sens_jacobian timeDependent firstAssembleDone ph
        src_row dst_row clear_row L).2 = L
    ∧ (build_petsc_sens_jacobian timeDependent firstAssembleDone ph
        src_row dst_row clear_row L).1
      = MatDiagonalScaleLeft L (ph.bcJ (MatZeroRows (MatAddRowToRow
          ((if firstAssembleDone then id else ph.reserveJ)
            (ph.spiceJ (ph.hangingJ ((if timeDependent then ph.timeJ else id)
              (ph.regionJ fun _ _ => 0))))) src_row dst_row) clear_row 0)) := by
  cases timeDependent <;> cases firstAssembleDone <;> exact ⟨rfl, rfl⟩

/-! ## C7: circuit increment clipping in potential_damping -/

/-- C7: potential_damping maps every circuit node of the last processor
through ckt_damp, and ckt_damp rescales a voltage-node increment larger
than 5 V to magnitude exactly 5 V, a current-node increment larger than
1 A to magnitude exactly 1 A, and leaves increments within the bound
unchanged. -/
theorem potential_damping_ckt_clipping (kb e T_external cm Kunit : ℝ)
    (regions : List PDRegion) (ckt : List CktNode) :
    (potential_damping kb e T_external cm Kunit regions ckt).2 = ckt.map ckt_damp
    ∧ ∀ nd : CktNode,
        (nd.kind = CktNodeKind.voltage →
          (5 < |nd.y| →
            (ckt_damp nd).w = nd.x - 5 / |nd.y| * nd.y
            ∧ |(ckt_damp nd).w - nd.x| = 5)
          ∧ (|nd.y| ≤ 5 → (ckt_damp nd).w = nd.w))
        ∧ (nd.kind = CktNodeKind.current →
          (1 < |nd.y| →
            (ckt_damp nd).w = nd.x - 1 / |nd.y| * nd.y
            ∧ |(ckt_damp nd).w - nd.x| = 1)
          ∧ (|nd.y| ≤ 1 → (ckt_damp nd).w = nd.w)) := by
  refine ⟨rfl, fun nd => ⟨fun hv => ⟨fun h5 => ?_, fun h5 => ?_⟩,
    fun hc => ⟨fun h1 => ?_, fun h1 => ?_⟩⟩⟩
  · have hw : (ckt_damp nd).w = nd.x - 5 / |nd.y| * nd.y := by
      simp [ckt_damp, hv, h5]
    refine ⟨hw, ?_⟩
    rw [hw]
    have h0 : (0 : ℝ) < |nd.y| := by linarith
    have hsub : nd.x - 5 / |nd.y| * nd.y - nd.x = -(5 / |nd.y| * nd.y) := by ring
    rw [hsub, abs_neg, abs_mul, abs_div, abs_abs,
      abs_of_nonneg (by norm_num : (0 : ℝ) ≤ 5)]
    exact div_mul_cancel₀ 5 (ne_of_gt h0)
  · simp [ckt_damp, hv, not_lt.mpr h5]
  · have hw : (ckt_damp nd).w = nd.x - 1 / |nd.y| * nd.y := by
      simp [ckt_damp, hc, h1]
    refine ⟨hw, ?_⟩
    rw [hw]
    have h0 : (0 : ℝ) < |nd.y| := by linarith
    have hsub : nd.x - 1 / |nd.y| * nd.y - nd.x = -(1 / |nd.y| * nd.y) := by ring
    rw [hsub, abs_neg, abs_mul, abs_div, abs_abs,
      abs_of_nonneg (by norm_num : (0 : ℝ) ≤ 1)]
    exact div_mul_cancel₀ 1 (ne_of_gt h0)
  · simp [ckt_damp, hc, not_lt.mpr h1]

/-- The example circuit node has an increment beyond the 5 V bound. -/
theorem cktExampleLarge : (5 : ℝ) < |cktExampleNode.y| := by
  norm_num [cktExampleNode]

/-- Witness for C7 at a concrete voltage node with increment 7 V. -/
theorem potential_damping_ckt_clipping_witness :
    (5 : ℝ) < |cktExampleNode.y|
    ∧ ((ckt_damp cktExampleNode).w
          = cktExampleNode.x - 5 / |cktExampleNode.y| * cktExampleNode.y
       ∧ |(ckt_damp cktExampleNode).w - cktExampleNode.x| = 5) :=
  ⟨cktExampleLarge,
   (((potential_damping_ckt_clipping 0 0 0 0 0 [] []).2 cktExampleNode).1 rfl).1
     cktExampleLarge⟩

/-! ## C2: potential damping on the device unknowns -/

/-- clamp_node leaves the previous iterate untouched. -/
theorem clamp_node_x (T c Ku : ℝ) (adv : AdvModel) (nd : PDNode) :
    (clamp_node T c Ku adv nd).x = nd.x := rfl

/-- clamp_node leaves the search direction untouched. -/
theorem clamp_node_y (T c Ku : ℝ) (adv : AdvModel) (nd : PDNode) :
    (clamp_node T c Ku adv nd).y = nd.y := rfl

/-- Fields of clamp_n_step: only n is written, by a clamp. -/
@[simp] theorem clamp_n_step_n (c : ℝ) (w : VarValsR) : (clamp_n_step c w).n = max w.n c := by
  unfold clamp_n_step; split_ifs with h
  · exact (max_eq_right h.le).symm
  · exact (max_eq_left (not_lt.mp h)).symm

@[simp] theorem clamp_n_step_psi (c : ℝ) (w : VarValsR) : (clamp_n_step c w).psi = w.psi := by
  unfold clamp_n_step; split_ifs <;> rfl

@[simp] theorem clamp_n_step_p (c : ℝ) (w : VarValsR) : (clamp_n_step c w).p = w.p := by
  unfold clamp_n_step; split_ifs <;> rfl

@[simp] theorem clamp_n_step_Tl (c : ℝ) (w : VarValsR) : (clamp_n_step c w).Tl = w.Tl := by
  unfold clamp_n_step; split_ifs <;> rfl

@[simp] theorem clamp_n_step_Tn (c : ℝ) (w : VarValsR) : (clamp_n_step c w).Tn = w.Tn := by
  unfold clamp_n_step; split_ifs <;> rfl

@[simp] theorem clamp_n_step_Tp (c : ℝ) (w : VarValsR) : (clamp_n_step c w).Tp = w.Tp := by
  unfold clamp_n_step; split_ifs <;> rfl

/-- Fields of clamp_p_step: only p is written, by a clamp. -/
@[simp] theorem clamp_p_step_p (c : ℝ) (w : VarValsR) : (clamp_p_step c w).p = max w.p c := by
  unfold clamp_p_step; split_ifs with h
  · exact (max_eq_right h.le).symm
  · exact (max_eq_left (not_lt.mp h)).symm

@[simp] theorem clamp_p_step_psi (c : ℝ) (w : VarValsR) : (clamp_p_step c w).psi = w.psi := by
  unfold clamp_p_step; split_ifs <;> rfl

@[simp] theorem clamp_p_step_n (c : ℝ) (w : VarValsR) : (clamp_p_step c w).n = w.n := by
  unfold clamp_p_step; split_ifs <;> rfl

@[simp] theorem clamp_p_step_Tl (c : ℝ) (w : VarValsR) : (clamp_p_step c w).Tl = w.Tl := by
  unfold clamp_p_step; split_ifs <;> rfl

@[simp] theorem clamp_p_step_Tn (c : ℝ) (w : VarValsR) : (clamp_p_step c w).Tn = w.Tn := by
  unfold clamp_p_step; split_ifs <;> rfl

@[simp] theorem clamp_p_step_Tp (c : ℝ) (w : VarValsR) : (clamp_p_step c w).Tp = w.Tp := by
  unfold clamp_p_step; split_ifs <;> rfl

/-- Fields of clamp_Tl_step: only Tl is written, by a clamp when enabled. -/
@[simp] theorem clamp_Tl_step_Tl (T Ku : ℝ) (adv : AdvModel) (w : VarValsR) :
    (clamp_Tl_step T Ku adv w).Tl
      = if adv.enable_Tl = true then max w.Tl (T - 50 * Ku) else w.Tl := by
  unfold clamp_Tl_step
  cases h : adv.enable_Tl
  · simp [h]
  · simp only [h, true_and, if_true]
    split_ifs with h2
    · exact (max_eq_right h2.le).symm
    · exact (max_eq_left (not_lt.mp h2)).symm

@[simp] theorem clamp_Tl_step_psi (T Ku : ℝ) (adv : AdvModel) (w : VarValsR) :
    (clamp_Tl_step T Ku adv w).psi = w.psi := by
  unfold clamp_Tl_step; split_ifs <;> rfl

@[simp] theorem clamp_Tl_step_n (T Ku : ℝ) (adv : AdvModel) (w : VarValsR) :
    (clamp_Tl_step T Ku adv w).n = w.n := by
  unfold clamp_Tl_step; split_ifs <;> rfl

@[simp] theorem clamp_Tl_step_p (T Ku : ℝ) (adv : AdvModel) (w : VarValsR) :
    (clamp_Tl_step T Ku adv w).p = w.p := by
  unfold clamp_Tl_step; split_ifs <;> rfl

@[simp] theorem clamp_Tl_step_Tn (T Ku : ℝ) (adv : AdvModel) (w : VarValsR) :
    (clamp_Tl_step T Ku adv w).Tn = w.Tn := by
  unfold clamp_Tl_step; split_ifs <;> rfl

@[simp] theorem clamp_Tl_step_Tp (T Ku : ℝ) (adv : AdvModel) (w : VarValsR) :
    (clamp_Tl_step T Ku adv w).Tp = w.Tp := by
  unfold clamp_Tl_step; split_ifs <;> rfl

/-- Fields of clamp_Tn_step: only Tn is written, by the clipped blend
when enabled. -/
@[simp] theorem clamp_Tn_step_Tn (T : ℝ) (adv : AdvModel) (x w : VarValsR) :
    (clamp_Tn_step T adv x w).Tn
      = if adv.enable_Tn = true then
          max (x.Tn / x.n * (1 - min (w.n / x.n) 2) + w.Tn / x.n) (0.9 * T) * w.n
        else w.Tn := by
  unfold clamp_Tn_step
  cases h : adv.enable_Tn
  · simp [h]
  · simp only [h, if_true]
    split_ifs with h2
    · exact congrArg (fun z => z * w.n) (max_eq_right h2.le).symm
    · exact congrArg (fun z => z * w.n) (max_eq_left (not_lt.mp h2)).symm

@[simp] theorem clamp_Tn_step_psi (T : ℝ) (adv : AdvModel) (x w : VarValsR) :
    (clamp_Tn_step T adv x w).psi = w.psi := by
  unfold clamp_Tn_step; split_ifs <;> rfl

@[simp] theorem clamp_Tn_step_n (T : ℝ) (adv : AdvModel) (x w : VarValsR) :
    (clamp_Tn_step T adv x w).n = w.n := by
  unfold clamp_Tn_step; split_ifs <;> rfl

@[simp] theorem clamp_Tn_step_p (T : ℝ) (adv : AdvModel) (x w : VarValsR) :
    (clamp_Tn_step T adv x w).p = w.p := by
  unfold clamp_Tn_step; split_ifs <;> rfl

@[simp] theorem clamp_Tn_step_Tl (T : ℝ) (adv : AdvModel) (x w : VarValsR) :
    (clamp_Tn_step T adv x w).Tl = w.Tl := by
  unfold clamp_Tn_step; split_ifs <;> rfl

@[simp] theorem clamp_Tn_step_Tp (T : ℝ) (adv : AdvModel) (x w : VarValsR) :
    (clamp_Tn_step T adv x w).Tp = w.Tp := by
  unfold clamp_Tn_step; split_ifs <;> rfl

/-- Fields of clamp_Tp_step: only Tp is written, by the clipped blend
when enabled. -/
@[simp] theorem clamp_Tp_step_Tp (T : ℝ) (adv : AdvModel) (x w : VarValsR) :
    (clamp_Tp_step T adv x w).Tp
      = if adv.enable_Tp = true then
          max (x.Tp / x.p * (1 - min (w.p / x.p) 2) + w.Tp / x.p) (0.9 * T) * w.p
        else w.Tp := by
  unfold clamp_Tp_step
  cases h : adv.enable_Tp
  · simp [h]
  · simp only [h, if_true]
    split_ifs with h2
    · exact congrArg (fun z => z * w.p) (max_eq_right h2.le).symm
    · exact congrArg (fun z => z * w.p) (max_eq_left (not_lt.mp h2)).symm

@[simp] theorem clamp_Tp_step_psi (T : ℝ) (adv : AdvModel) (x w : VarValsR) :
    (clamp_Tp_step T adv x w).psi = w.psi := by
  unfold clamp_Tp_step; split_ifs <;> rfl

@[simp] theorem clamp_Tp_step_n (T : ℝ) (adv : AdvModel) (x w : VarValsR) :
    (clamp_Tp_step T adv x w).n = w.n := by
  unfold clamp_Tp_step; split_ifs <;> rfl

@[simp] theorem clamp_Tp_step_p (T : ℝ) (adv : AdvModel) (x w : VarValsR) :
    (clamp_Tp_step T adv x w).p = w.p := by
  unfold clamp_Tp_step; split_ifs <;> rfl

@[simp] theorem clamp_Tp_step_Tl (T : ℝ) (adv : AdvModel) (x w : VarValsR) :
    (clamp_Tp_step T adv x w).Tl = w.Tl := by
  unfold clamp_Tp_step; split_ifs <;> rfl

@[simp] theorem clamp_Tp_step_Tn (T : ℝ) (adv : AdvModel) (x w : VarValsR) :
    (clamp_Tp_step T adv x w).Tn = w.Tn := by
  unfold clamp_Tp_step; split_ifs <;> rfl

/-- clamp_node leaves the candidate psi entry untouched. -/
theorem clamp_node_w_psi (T c Ku : ℝ) (adv : AdvModel) (nd : PDNode) :
    (clamp_node T c Ku adv nd).w.psi = nd.w.psi := by
  simp [clamp_node]

/-- The candidate n entry after clamp_node. -/
theorem clamp_node_w_n (T c Ku : ℝ) (adv : AdvModel) (nd : PDNode) :
    (clamp_node T c Ku adv nd).w.n = max nd.w.n c := by
  simp [clamp_node]

/-- The candidate p entry after clamp_node. -/
theorem clamp_node_w_p (T c Ku : ℝ) (adv : AdvModel) (nd : PDNode) :
    (clamp_node T c Ku adv nd).w.p = max nd.w.p c := by
  simp [clamp_node]

/-- The candidate Tl entry after clamp_node. -/
theorem clamp_node_w_Tl (T c Ku : ℝ) (adv : AdvModel) (nd : PDNode) :
    (clamp_node T c Ku adv nd).w.Tl
      = if adv.enable_Tl = true then max nd.w.Tl (T - 50 * Ku) else nd.w.Tl := by
  simp [clamp_node]

/-- The candidate n*Tn entry after clamp_node. -/
theorem clamp_node_w_Tn (T c Ku : ℝ) (adv : AdvModel) (nd : PDNode) :
    (clamp_node T c Ku adv nd).w.Tn
      = if adv.enable_Tn = true then
          max (nd.x.Tn / nd.x.n * (1 - min (max nd.w.n c / nd.x.n) 2)
                + nd.w.Tn / nd.x.n) (0.9 * T) * max nd.w.n c
        else nd.w.Tn := by
  simp [clamp_node]

/-- The candidate p*Tp entry after clamp_node. -/
theorem clamp_node_w_Tp (T c Ku : ℝ) (adv : AdvModel) (nd : PDNode) :
    (clamp_node T c Ku adv nd).w.Tp
      = if adv.enable_Tp = true then
          max (nd.x.Tp / nd.x.p * (1 - min (max nd.w.p c / nd.x.p) 2)
                + nd.w.Tp / nd.x.p) (0.9 * T) * max nd.w.p c
        else nd.w.Tp := by
  simp [clamp_node]

/-- On a semiconductor node the clamp loop followed by the psi overwrite
produces exactly the block described by the amended claim. -/
theorem damped_node_semi (T c Ku f : ℝ) (adv : AdvModel) (nd : PDNode) :
    psi_damp f (clamp_node T c Ku adv nd) = damped_node_spec T c Ku true adv f nd := by
  ext1
  · simp [psi_damp, damped_node_spec, clamp_node_x]
  · simp [psi_damp, damped_node_spec, clamp_node_y]
  · ext1
    · simp [psi_damp, damped_node_spec, clamp_node_x, clamp_node_y]
    · simp [psi_damp, damped_node_spec, clamp_node_w_n]
    · simp [psi_damp, damped_node_spec, clamp_node_w_p]
    · simp [psi_damp, damped_node_spec, clamp_node_w_Tl]
    · simp [psi_damp, damped_node_spec, clamp_node_w_Tn]
    · simp [psi_damp, damped_node_spec, clamp_node_w_Tp]

/-- On a node of a non-semiconductor region only the psi overwrite acts. -/
theorem damped_node_nonsemi (T c Ku f : ℝ) (adv : AdvModel) (nd : PDNode) :
    damped_node_spec T c Ku false adv f nd = psi_damp f nd := by
  simp [damped_node_spec, psi_damp]

/-- C2 amended: whenever the reduced dV_max exceeds 1e-6, the device
part of the candidate returned by potential_damping is exactly the
amended description: every psi entry of every region becomes
x - f*y with the logarithmic factor f, the non-psi entries of
non-semiconductor nodes keep their trial values, and in semiconductor
nodes n and p are clamped to onePerCMC, Tl is clamped to
T_external - 50 K when enabled, and the n*Tn and p*Tp rows are
recomputed through the clipped temperature blend when enabled. -/
theorem potential_damping_psi_overwrite_amended (kb e T_external cm Kunit : ℝ)
    (regions : List PDRegion) (ckt : List CktNode)
    (h : 1e-6 < dVmax regions) :
    (potential_damping kb e T_external cm Kunit regions ckt).1
      = potential_damping_spec kb e T_external cm Kunit regions := by
  simp only [potential_damping, potential_damping_spec]
  rw [if_pos h, List.map_map]
  refine List.map_congr_left (fun rg _ => ?_)
  by_cases hrg : rg.typ = RegionType.Semiconductor
  · simp [hrg, List.map_map, Function.comp, damped_node_semi]
  · simp [hrg, damped_node_nonsemi]

/-- The example region has dV_max = 1, above the damping threshold. -/
theorem pdExampleDV : (1e-6 : ℝ) < dVmax [pdExampleRegion] := by
  simp [dVmax, pdExampleRegion]
  norm_num

/-- Counterexample to C2 as stated: on the example state the damping
threshold is exceeded, yet the n entry (a non-psi device component) of
the candidate does not keep its trial value 0: the clamp loop raises it
to onePerCMC = 1. -/
theorem potential_damping_nonpsi_changed :
    (1e-6 : ℝ) < dVmax [pdExampleRegion]
    ∧ (potential_damping 1 1 300 1 1 [pdExampleRegion] []).1.map
        (fun rg => rg.nodes.map (fun nd => nd.w.n)) = [[1]]
    ∧ pdExampleRegion.nodes.map (fun nd => nd.w.n) = [0]
    ∧ (1 : ℝ) ≠ 0 := by
  refine ⟨pdExampleDV, ?_, by simp [pdExampleRegion], by norm_num⟩
  simp only [potential_damping]
  rw [if_pos pdExampleDV]
  simp [pdExampleRegion, psi_damp, clamp_node_w_n]

/-- Witness for C2 at the example state. -/
theorem potential_damping_psi_overwrite_witness :
    (1e-6 : ℝ) < dVmax [pdExampleRegion]
    ∧ (potential_damping 1 1 300 1 1 [pdExampleRegion] []).1
        = potential_damping_spec 1 1 300 1 1 [pdExampleRegion] :=
  ⟨pdExampleDV,
   potential_damping_psi_overwrite_amended 1 1 300 1 1 [pdExampleRegion] [] pdExampleDV⟩

/-! ## C4: the scaled local truncation error norm -/

/-- Counterexample to C4 as stated: LTE_norm divides by
eps_r * x + eps_a, not by eps_r * |x| + eps_a.  At a node with solution
entry x_n = -2, LTE entry 1 and eps_r = eps_a = 1 the code produces
1/(1*(-2)+1) = -1 while the claimed formula gives 1/(1*|-2|+1) = 1/3. -/
theorem LTE_norm_no_abs_counterexample :
    (lte_scale_node 1 1 RegionType.Semiconductor advOff lteExampleNode).lte.n
      ≠ lteExampleNode.lte.n / (1 * |lteExampleNode.x.n| + 1) := by
  norm_num [lte_scale_node, lteExampleNode, advOff]

/-- C4 amended: LTE_norm zeroes the psi entry of every node of every
non-vacuum region, divides every non-masked entry by eps_r * x + eps_a
(with x the corresponding solution entry, no absolute value), divides
every circuit row likewise, and returns the 2-norm of the scaled vector
divided by sqrt N, with N the claimed component count (1.0 when N = 0). -/
theorem LTE_norm_characterisation (eps_r eps_a : ℝ)
    (regions : List LTERegion) (ckt : List LTECktNode) :
    (∀ (typ : RegionType) (adv : AdvModel) (nd : LTENode),
        typ ≠ RegionType.Vacuum →
        (lte_scale_node eps_r eps_a typ adv nd).lte.psi = 0)
    ∧ (∀ (adv : AdvModel) (nd : LTENode),
        (lte_scale_node eps_r eps_a RegionType.Semiconductor adv nd).lte.n
            = nd.lte.n / (eps_r * nd.x.n + eps_a)
        ∧ (lte_scale_node eps_r eps_a RegionType.Semiconductor adv nd).lte.p
            = nd.lte.p / (eps_r * nd.x.p + eps_a)
        ∧ (adv.enable_Tl = true →
            (lte_scale_node eps_r eps_a RegionType.Semiconductor adv nd).lte.Tl
              = nd.lte.Tl / (eps_r * nd.x.Tl + eps_a))
        ∧ (adv.enable_Tn = true →
            (lte_scale_node eps_r eps_a RegionType.Semiconductor adv nd).lte.Tn
              = nd.lte.Tn / (eps_r * nd.x.Tn + eps_a))
        ∧ (adv.enable_Tp = true →
            (lte_scale_node eps_r eps_a RegionType.Semiconductor adv nd).lte.Tp
              = nd.lte.Tp / (eps_r * nd.x.Tp + eps_a)))
    ∧ (∀ (adv : AdvModel) (nd : LTENode), adv.enable_Tl = true →
        (lte_scale_node eps_r eps_a RegionType.Insulator adv nd).lte.Tl
          = nd.lte.Tl / (eps_r * nd.x.Tl + eps_a))
    ∧ lte_scaled_ckt eps_r eps_a ckt
        = ckt.map (fun cn => { cn with lte := cn.lte / (eps_r * cn.x + eps_a) })
    ∧ LTE_norm eps_r eps_a regions ckt
        = (if 0 < lte_count regions ckt then
            Real.sqrt (lte_norm_sq (lte_scaled_regions eps_r eps_a regions)
                (lte_scaled_ckt eps_r eps_a ckt))
              / Real.sqrt (lte_count regions ckt)
          else 1) := by
  refine ⟨?_, ?_, ?_, rfl, rfl⟩
  · intro typ adv nd htyp
    cases typ <;> simp [lte_scale_node] at htyp ⊢
  · intro adv nd
    refine ⟨rfl, rfl, ?_, ?_, ?_⟩ <;> intro h <;> simp [lte_scale_node, h]
  · intro adv nd h
    simp [lte_scale_node, h]

/-- Witness for C4 at a concrete node of a semiconductor region. -/
theorem LTE_norm_characterisation_witness :
    RegionType.Semiconductor ≠ RegionType.Vacuum
    ∧ (lte_scale_node 1 1 RegionType.Semiconductor advOff lteWitnessNode).lte.psi = 0 :=
  ⟨by decide,
   (LTE_norm_characterisation 1 1 [] []).1 RegionType.Semiconductor advOff
     lteWitnessNode (by decide)⟩

end MixA3
